import Mathlib

/-!
Verification of the copilot-proxy request-translation and streaming-relay
core against its natural-language specification.

The Go sources embedded here:
- `internal/models/catalog.go` — the static model registry and its lookups.
- `internal/server/handlers.go` — `handleChatCompletions` (validation,
  payload augmentation, upstream call, response forwarding) and
  `streamResponse` (the relay loop).
- `internal/server/server.go` — the upstream HTTP client configuration.

JSON documents are modelled as an inductive `JsonValue`; Go's
`map[string]any` (the open-document body) is an association list with
unique keys obtained by `toMap`, which keeps the last occurrence of a
duplicated key exactly as Go's `encoding/json` does.
-/

/-- JSON values. Numbers are modelled as integers: no claim inspects a
numeric field, so precision of the numeric carrier is irrelevant. -/
inductive JsonValue where
  | null
  | bool (b : Bool)
  | num (n : Int)
  | str (s : String)
  | arr (xs : List JsonValue)
  | obj (fields : List (String × JsonValue))

/-- Lookup of a key in a unique-key field list (first match). -/
def lookupKey : List (String × JsonValue) → String → Option JsonValue
  | [], _ => none
  | (k2, v) :: rest, k => if k2 == k then some v else lookupKey rest k

/-- Go map assignment `m[k] = v`: any existing binding for `k` is replaced.
Field order is irrelevant because `encoding/json` serializes map keys in
sorted order; all claims query the body through `lookupKey`. -/
def setKey (fs : List (String × JsonValue)) (k : String) (v : JsonValue) :
    List (String × JsonValue) :=
  (k, v) :: fs.filter (fun p => !(p.1 == k))

/-- Go `json.Unmarshal` into `map[string]any`: for duplicated keys the last
occurrence wins. The result has unique keys. -/
def toMap : List (String × JsonValue) → List (String × JsonValue)
  | [] => []
  | (k, v) :: rest =>
      let m := toMap rest
      match lookupKey m k with
      | some _ => m
      | none => (k, v) :: m

/-- Field map of a JSON document: `obj` fields deduplicated last-wins,
anything else the empty map (Go leaves the target map untouched). -/
def docMap (doc : JsonValue) : List (String × JsonValue) :=
  match doc with
  | .obj fs => toMap fs
  | _ => []

/-! ## Model registry (internal/models/catalog.go) -/

/-- One catalog entry. `name` is the display name (`Name` in Go), `model`
the lowercase wire name (`Model`). The serialization-only fields
(`ModifiedAt`, `Size`, `Digest`, `Details`) are omitted: no registry
lookup reads them. -/
structure ModelEntry where
  name : String
  model : String
  capabilities : List String
  contextLen : Nat
deriving Repr, DecidableEq

/-- The static catalog `models.Catalog` (catalog.go lines 32-99). -/
def Catalog : List ModelEntry :=
  [ { name := "GLM-4.7", model := "glm-4.7",
      capabilities := ["tools", "vision"], contextLen := 200000 },
    { name := "GLM-4.6", model := "glm-4.6",
      capabilities := ["tools", "vision"], contextLen := 200000 },
    { name := "GLM-4.5", model := "glm-4.5",
      capabilities := ["tools", "vision"], contextLen := 128000 },
    { name := "GLM-4.5-Air", model := "glm-4.5-air",
      capabilities := ["tools", "vision"], contextLen := 128000 } ]

/-- ASCII lowercasing of one character. -/
def asciiLower (c : Char) : Char :=
  if 'A' ≤ c ∧ c ≤ 'Z' then Char.ofNat (c.toNat + 32) else c

/-- Go `strings.EqualFold` restricted to ASCII, which coincides with full
Unicode simple folding on the ASCII catalog names and inputs involved in
the claims. -/
def eqFold (a b : String) : Bool :=
  a.data.map asciiLower == b.data.map asciiLower

/-- Go `models.IsValidModel`: case-insensitive match against both the
display and the wire name (catalog.go lines 102-109). -/
def IsValidModel (name : String) : Bool :=
  Catalog.any (fun m => eqFold m.name name || eqFold m.model name)

/-- Go `models.GetModelContextLength`: case-SENSITIVE match against the
display name only, defaulting to 128000 (catalog.go lines 112-119). -/
def GetModelContextLength (name : String) : Nat :=
  match Catalog.find? (fun m => m.name == name) with
  | some m => m.contextLen
  | none => 128000

/-- Go `models.GetModel`: case-SENSITIVE match against both names
(catalog.go lines 122-129). -/
def GetModel (name : String) : Option ModelEntry :=
  Catalog.find? (fun m => m.name == name || m.model == name)

/-- Go `models.GetCanonicalModelName`: case-insensitive match against both
names, returning the lowercase wire name, or the input unchanged when not
found (catalog.go lines 133-140). -/
def GetCanonicalModelName (name : String) : String :=
  match Catalog.find? (fun m => eqFold m.name name || eqFold m.model name) with
  | some m => m.model
  | none => name

example : IsValidModel "glm-4.6" = true := by decide
example : IsValidModel "gLm-4.6" = true := by decide
example : GetModelContextLength "glm-4.7" = 128000 := by decide
example : GetModel "gLm-4.6" = none := by decide
example : GetCanonicalModelName "GLM-4.6" = "glm-4.6" := by decide

/-! ## Request decoding (internal/api/types.go plus json.Unmarshal
semantics used by handleChatCompletions) -/

/-- One chat message, Go struct `api.Message`. `content` is Go `any`, so
any JSON value (including absent, decoded as `null`) is accepted. -/
structure Message where
  role : String
  content : JsonValue

/-- Go struct `api.ChatRequest`: the strict first-pass decode target. -/
structure ChatRequest where
  model : String
  messages : List Message
  stream : Option Bool

/-- Values of the object keys that Go `encoding/json` matches to the
struct field named `k`: struct-field matching is CASE-INSENSITIVE (an
exact match is merely preferred when two fields collide, which never
happens for these structs), and the decoder processes the object keys in
order, so every fold-matching key's value is applied to the field in
sequence. -/
def foldMatches (fs : List (String × JsonValue)) (k : String) : List JsonValue :=
  (fs.filter (fun p => eqFold p.1 k)).map (fun p => p.2)

/-- Applying one matching key's value to a `string` struct field:
JSON `null` has no effect on a string field, a JSON string replaces the
current value, anything else is a decode error — and once the decoder
has recorded an error the request fails regardless of later keys. -/
def updateStringField : Option String → JsonValue → Option String
  | none, _ => none
  | some cur, .null => some cur
  | some _, .str s => some s
  | some _, _ => none

/-- Applying one matching key's value to a `*bool` struct field:
JSON `null` sets the pointer to nil, a JSON boolean sets it, anything
else is a decode error. -/
def updateStreamField : Option (Option Bool) → JsonValue → Option (Option Bool)
  | none, _ => none
  | some _, .null => some none
  | some _, .bool b => some (some b)
  | some _, _ => none

/-- Applying one matching key's value to a `map[string]any` struct field
(only well-typedness is tracked): JSON `null` nils the map, a JSON object
is decoded, anything else is a decode error. -/
def updateOptionsField : Bool → JsonValue → Bool
  | false, _ => false
  | true, .null => true
  | true, .obj _ => true
  | true, _ => false

/-- Go `json.Unmarshal` of one `messages` element into `api.Message`:
`null` leaves the zero struct; an object applies each key matching
`role` (case-insensitively, last well-typed match wins, a non-string
non-null match is a decode error) and keeps the last `content` match
as-is (`content` is Go `any`, so every JSON value is accepted and `null`
nils the interface); any other JSON shape is a decode error. -/
def decodeMessage (v : JsonValue) : Option Message :=
  match v with
  | .null => some { role := "", content := .null }
  | .obj fs =>
      match (foldMatches fs "role").foldl updateStringField (some "") with
      | none => none
      | some r =>
          some { role := r,
                 content := ((foldMatches fs "content").getLast?).getD .null }
  | _ => none

/-- Decode a list of message elements; any ill-typed element makes the
whole unmarshal report an error. -/
def decodeMessages : List JsonValue → Option (List Message)
  | [] => some []
  | v :: rest =>
      match decodeMessage v with
      | none => none
      | some m =>
          match decodeMessages rest with
          | none => none
          | some ms => some (m :: ms)

/-- Applying one matching key's value to the `[]Message` struct field:
JSON `null` has no effect on a slice field, a JSON array replaces the
slice with its decoded elements (erroring if any element is ill-typed),
anything else is a decode error. -/
def updateMessagesField : Option (List Message) → JsonValue → Option (List Message)
  | none, _ => none
  | some cur, .null => some cur
  | some _, .arr xs => decodeMessages xs
  | some _, _ => none

/-- Go `json.Unmarshal(bodyBytes, &req)` into `api.ChatRequest`
(handlers.go lines 276-280). A top-level `null` leaves the zero struct.
A top-level object is decoded field by field with Go's CASE-INSENSITIVE
struct-field matching: every key that fold-matches `model`, `messages`,
`stream` or `options` is applied to that field in key order (so the last
well-typed match wins), and an ill-typed value for any matching key is
recorded as a decode error even if a later key matches cleanly — Go
saves the first type error and still returns it. Unmatched keys are
ignored. Any other top-level shape is a decode error. -/
def decodeChatRequest (doc : JsonValue) : Option ChatRequest :=
  match doc with
  | .null => some { model := "", messages := [], stream := none }
  | .obj fs =>
      match (foldMatches fs "model").foldl updateStringField (some ""),
            (foldMatches fs "messages").foldl updateMessagesField (some []),
            (foldMatches fs "stream").foldl updateStreamField (some none),
            (foldMatches fs "options").foldl updateOptionsField true with
      | some mo, some ms, some st, true =>
          some { model := mo, messages := ms, stream := st }
      | _, _, _, _ => none
  | _ => none

example :
    decodeChatRequest (.obj [("MODEL", .str "GLM-4.6"),
      ("messages", .arr [.obj [("Role", .str "user"),
        ("content", .str "hi")]])]) =
    some { model := "GLM-4.6",
           messages := [{ role := "user", content := .str "hi" }],
           stream := none } := by rfl

example :
    decodeChatRequest (.obj [("model", .str "a"), ("MODEL", .num 5)]) =
      none := by rfl

example :
    decodeChatRequest (.obj [("model", .str "a"), ("MODEL", .null),
      ("Model", .str "b")]) =
    some { model := "b", messages := [], stream := none } := by rfl

example :
    decodeMessage (.obj [("Role", .str "tool")]) =
      some { role := "tool", content := .null } := by rfl

/-! ## Validation and augmentation (handleChatCompletions, handlers.go
lines 267-338) -/

/-- The early-exit error kinds of `handleChatCompletions` before the
upstream call. Quoting in the Go message strings is elided; no claim
inspects the message text of these errors. -/
inductive EarlyError where
  | invalidJson
  | modelRequired
  | messagesRequired
  | roleRequired (i : Nat)
  | roleInvalid (i : Nat)
  | modelNotFound (m : String)
deriving Repr, DecidableEq

/-- Go `validRoles` map (handlers.go line 296). -/
def validRoles : List String := ["system", "user", "assistant", "tool"]

/-- The per-message loop of handlers.go lines 291-301: fail fast on the
first message with an empty role, then on the first role outside
`validRoles`, reporting the offending index. -/
def validateMessages : List Message → Nat → Option EarlyError
  | [], _ => none
  | m :: rest, i =>
      if m.role == "" then some (.roleRequired i)
      else if !(validRoles.contains m.role) then some (.roleInvalid i)
      else validateMessages rest (i + 1)

/-- The manual validation of handlers.go lines 283-307, in source order:
empty model, empty messages, message roles, then the catalog check. -/
def validateRequest (req : ChatRequest) : Option EarlyError :=
  if req.model == "" then some .modelRequired
  else if req.messages.isEmpty then some .messagesRequired
  else
    match validateMessages req.messages 0 with
    | some e => some e
    | none =>
        if !(IsValidModel req.model) then some (.modelNotFound req.model)
        else none

/-- The `stream` flag as read by handlers.go line 328:
`stream, _ := bodyMap["stream"].(bool)` — false unless the value is a
JSON boolean. -/
def streamFlag (m : List (String × JsonValue)) : Bool :=
  match lookupKey m "stream" with
  | some (.bool b) => b
  | _ => false

/-- Key-presence test of handlers.go line 327:
`_, hasTools := bodyMap["tools"]`. -/
def hasKey (m : List (String × JsonValue)) (k : String) : Bool :=
  (lookupKey m k).isSome

/-- The value injected at handlers.go lines 320-322. -/
def thinkingValue : JsonValue := .obj [("type", .str "enabled")]

/-- Payload augmentation of handlers.go lines 317-332 on the generic body
map: unconditionally set `thinking`, then set `tool_stream` when the
validated model string is exactly "GLM-4.6", the `tools` key is present
and `stream` is the boolean `true`. The `model` key is not touched. -/
def augment (m : List (String × JsonValue)) (modelName : String) :
    List (String × JsonValue) :=
  let f1 := setKey m "thinking" thinkingValue
  if modelName == "GLM-4.6" then
    if hasKey f1 "tools" && streamFlag f1 then
      setKey f1 "tool_stream" (.bool true)
    else f1
  else f1

/-- The whole pre-upstream pipeline of `handleChatCompletions`
(handlers.go lines 276-338): strict decode, manual validation, catalog
check, re-decode as a generic map, augmentation. The result is the
upstream-bound body map (serialized once, never re-parsed). A top-level
document that is not an object cannot reach the map stage: the strict
decode either fails or yields an empty model. -/
def prepareUpstreamBody (doc : JsonValue) :
    Except EarlyError (List (String × JsonValue)) :=
  match decodeChatRequest doc with
  | none => .error .invalidJson
  | some req =>
      match validateRequest req with
      | some e => .error e
      | none => .ok (augment (docMap doc) req.model)

example :
    prepareUpstreamBody (.obj [("model", .str "GLM-4.6"),
      ("messages", .arr [.obj [("role", .str "user"), ("content", .str "hi")]])]) =
    .ok [("thinking", thinkingValue),
         ("model", .str "GLM-4.6"),
         ("messages", .arr [.obj [("role", .str "user"), ("content", .str "hi")]])] := by
  rfl

example :
    prepareUpstreamBody (.obj [("MODEL", .str "GLM-4.6"),
      ("messages", .arr [.obj [("role", .str "user"), ("content", .str "hi")]])]) =
    .ok [("thinking", thinkingValue),
         ("MODEL", .str "GLM-4.6"),
         ("messages", .arr [.obj [("role", .str "user"), ("content", .str "hi")]])] := by
  rfl

/-! ## Upstream request headers (handlers.go lines 349-355) -/

/-- Headers placed on the outbound request: `Content-Type` is always set
to `application/json`; `Authorization: Bearer <apiKey>` is set only when
the configured API key is non-empty. -/
def upstreamHeaders (apiKey : String) : List (String × String) :=
  let base := [("Content-Type", "application/json")]
  if apiKey == "" then base
  else base ++ [("Authorization", "Bearer " ++ apiKey)]

/-! ## Stream relay (streamResponse, handlers.go lines 392-421) -/

/-- One result of `body.Read(buf)` as seen by the relay loop: a chunk with
no error, a chunk together with `io.EOF`, a bare `io.EOF`, a chunk with a
non-EOF error, or a bare non-EOF error. Chunk bytes are `Nat`s. -/
inductive ReadResult where
  | chunk (data : List Nat)
  | chunkEOF (data : List Nat)
  | eof
  | chunkErr (data : List Nat)
  | readErr
deriving Repr, DecidableEq

/-- Outcome of the relay loop: `completed` is the nil return, the others
correspond to returning `ctx.Err()`, a write error, and a non-EOF read
error respectively. -/
inductive RelayResult where
  | completed
  | canceled
  | writeError
  | readFailed
deriving Repr, DecidableEq

/-- Countdown to cancellation: `some k` means the context becomes Done at
the check preceding the k-th read (0-indexed); `none` means it is never
cancelled. Once 0 it stays 0. -/
def decCancel : Option Nat → Option Nat
  | some (n + 1) => some n
  | c => c

/-- Remaining successful writes before the destination starts failing
(`none`: writes always succeed). -/
def decBudget : Option Nat → Option Nat
  | some (n + 1) => some n
  | c => c

/-- The loop of `streamResponse`: before each read the context is
checked (`select` on `ctx.Done()`), returning `ctx.Err()` with no further
write when cancelled; a read returning data writes the chunk and flushes
it (every emitted chunk is immediately flushed, so the write list is the
flushed-chunk list); `io.EOF` breaks the loop returning nil; other errors
are returned after any data from the same read was written. An exhausted
read list behaves as a bare `io.EOF`. Returns the written chunks and the
loop outcome. -/
def runRelay : Option Nat → Option Nat → List ReadResult →
    List (List Nat) × RelayResult
  | some 0, _, _ => ([], .canceled)
  | _, _, [] => ([], .completed)
  | c, w, r :: rest =>
      match r with
      | .chunk d =>
          match w with
          | some 0 => ([], .writeError)
          | _ =>
              let rec' := runRelay (decCancel c) (decBudget w) rest
              (d :: rec'.1, rec'.2)
      | .chunkEOF d =>
          match w with
          | some 0 => ([], .writeError)
          | _ => ([d], .completed)
      | .eof => ([], .completed)
      | .chunkErr d =>
          match w with
          | some 0 => ([], .writeError)
          | _ => ([d], .readFailed)
      | .readErr => ([], .readFailed)

/-! ## Upstream exchange and response forwarding (handlers.go lines
357-389) -/

/-- Outcome of `s.client.Do(upstreamReq)`: an error (with
`errors.Is(err, context.Canceled)` recorded) or a response with status,
headers and a body read sequence. -/
inductive UpstreamOutcome where
  | failure (canceled : Bool)
  | response (status : Nat) (headers : List (String × String))
      (reads : List ReadResult)
deriving Repr, DecidableEq

/-- What the original caller receives from the exchange stage: either a
proxy-generated JSON error document, or the upstream response relayed
(status and headers copied verbatim, then the written body chunks and the
relay outcome). -/
inductive CallerResponse where
  | errorJson (status : Nat) (message : String)
  | relayed (status : Nat) (headers : List (String × String))
      (writes : List (List Nat)) (result : RelayResult)
deriving Repr, DecidableEq

/-- Handlers.go lines 357-389: a `client.Do` error yields 499
`request canceled` when caused by context cancellation and 502 otherwise;
any response — regardless of its status code — has all headers copied,
its status written, and its body relayed. After the relay returns, the
handler only returns: no further response is written. -/
def executeUpstream (cancelAt writeBudget : Option Nat)
    (outcome : UpstreamOutcome) : CallerResponse :=
  match outcome with
  | .failure true => .errorJson 499 "request canceled"
  | .failure false => .errorJson 502 "Failed to connect to upstream server"
  | .response st hs reads =>
      let rel := runRelay cancelAt writeBudget reads
      .relayed st hs rel.1 rel.2

/-- The fields of the `http.Transport` set by `NewServer`. -/
structure TransportConfig where
  maxIdleConnsPerHost : Nat
  idleConnTimeoutSeconds : Nat
deriving Repr, DecidableEq

/-- The fields of the `http.Client` set by `NewServer`. Per Go's
`net/http` documentation, a non-zero `Timeout` bounds the ENTIRE
exchange — connection, redirects, and reading the response body — and
interrupts `Response.Body` reads when it elapses; `none` (zero) means no
client-imposed deadline. -/
structure ClientConfig where
  transport : TransportConfig
  timeoutSeconds : Option Nat
deriving Repr, DecidableEq

/-- The client built in server.go lines 94-101. -/
def proxyClientConfig : ClientConfig :=
  { transport := { maxIdleConnsPerHost := 50, idleConnTimeoutSeconds := 90 },
    timeoutSeconds := some 120 }

/-- Wall-clock ceiling the client imposes on a whole exchange, body
included: exactly the Go `http.Client.Timeout` when non-zero. -/
def wholeExchangeTimeout (cfg : ClientConfig) : Option Nat :=
  cfg.timeoutSeconds

example : runRelay none none [.chunk [1, 2], .chunk [3], .eof] =
    ([[1, 2], [3]], .completed) := by rfl
example : runRelay (some 1) none [.chunk [1, 2], .chunk [3], .eof] =
    ([[1, 2]], .canceled) := by rfl
example : executeUpstream none none (.failure true) =
    .errorJson 499 "request canceled" := by rfl

/-! ## Helper lemmas about the document map operations -/

theorem lookup_setKey_same (fs : List (String × JsonValue)) (k : String)
    (v : JsonValue) : lookupKey (setKey fs k v) k = some v := by
  simp [lookupKey, setKey]

theorem lookupKey_filter_out (fs : List (String × JsonValue)) (k k2 : String)
    (h : k2 ≠ k) :
    lookupKey (fs.filter (fun p => !(p.1 == k))) k2 = lookupKey fs k2 := by
  induction fs with
  | nil => rfl
  | cons a rest ih =>
      obtain ⟨ak, av⟩ := a
      have hk2 : ¬ (k = k2) := fun e => h e.symm
      by_cases hak : ak = k
      · simp [lookupKey, List.filter_cons, hak, hk2, h, ih]
      · by_cases ha2 : ak = k2
        · simp [lookupKey, List.filter_cons, hak, ha2, h]
        · simp [lookupKey, List.filter_cons, hak, ha2, h, ih]

theorem lookup_setKey_ne (fs : List (String × JsonValue)) (k : String)
    (v : JsonValue) (k2 : String) (h : k2 ≠ k) :
    lookupKey (setKey fs k v) k2 = lookupKey fs k2 := by
  have hk2 : (k == k2) = false := by
    rw [beq_eq_false_iff_ne]
    exact fun e => h e.symm
  simp only [setKey, lookupKey, hk2]
  simp only [Bool.false_eq_true, if_false]
  exact lookupKey_filter_out fs k k2 h

theorem hasKey_setKey_ne (m : List (String × JsonValue)) (k : String)
    (v : JsonValue) (k2 : String) (h : k2 ≠ k) :
    hasKey (setKey m k v) k2 = hasKey m k2 := by
  unfold hasKey
  rw [lookup_setKey_ne m k v k2 h]

theorem streamFlag_setKey_ne (m : List (String × JsonValue)) (k : String)
    (v : JsonValue) (h : ("stream" : String) ≠ k) :
    streamFlag (setKey m k v) = streamFlag m := by
  unfold streamFlag
  rw [lookup_setKey_ne m k v "stream" h]

/-- The augmented body always carries the injected `thinking` object. -/
theorem lookup_augment_thinking (m : List (String × JsonValue))
    (model : String) :
    lookupKey (augment m model) "thinking" = some thinkingValue := by
  simp only [augment]
  split
  · split
    · rw [lookup_setKey_ne _ _ _ _ (by decide)]
      exact lookup_setKey_same _ _ _
    · exact lookup_setKey_same _ _ _
  · exact lookup_setKey_same _ _ _

/-- Where `tool_stream` comes from in the augmented body: set to `true`
exactly when the Go condition fires, otherwise whatever the inbound map
already had. -/
theorem lookup_augment_tool_stream (m : List (String × JsonValue))
    (model : String) :
    lookupKey (augment m model) "tool_stream" =
      (if model == "GLM-4.6" && hasKey m "tools" && streamFlag m
       then some (JsonValue.bool true)
       else lookupKey m "tool_stream") := by
  have htools : hasKey (setKey m "thinking" thinkingValue) "tools" =
      hasKey m "tools" := hasKey_setKey_ne _ _ _ _ (by decide)
  have hstream : streamFlag (setKey m "thinking" thinkingValue) =
      streamFlag m := streamFlag_setKey_ne _ _ _ (by decide)
  have hts : lookupKey (setKey m "thinking" thinkingValue) "tool_stream" =
      lookupKey m "tool_stream" := lookup_setKey_ne _ _ _ _ (by decide)
  simp only [augment, htools, hstream]
  cases h1 : (model == "GLM-4.6") <;>
    cases h2 : hasKey m "tools" <;>
      cases h3 : streamFlag m <;>
        simp [h1, h2, h3, hts, lookup_setKey_same]

/-- Success of the pipeline pins down the produced fields. -/
theorem prepareUpstreamBody_ok (doc : JsonValue) (req : ChatRequest)
    (fields : List (String × JsonValue))
    (hd : decodeChatRequest doc = some req)
    (h : prepareUpstreamBody doc = .ok fields) :
    validateRequest req = none ∧ fields = augment (docMap doc) req.model := by
  unfold prepareUpstreamBody at h
  rw [hd] at h
  dsimp only at h
  cases hv : validateRequest req with
  | some e =>
      rw [hv] at h
      exact absurd h (by simp)
  | none =>
      rw [hv] at h
      simp only [Except.ok.injEq] at h
      exact ⟨rfl, h.symm⟩

/-! ## Claim theorems -/

/-- Claim C7: every request the handler forwards upstream has a body whose
`thinking` key is the object with `type` equal to `"enabled"`, regardless
of the inbound contents. -/
theorem c7_thinking_always_enabled (doc : JsonValue)
    (fields : List (String × JsonValue))
    (h : prepareUpstreamBody doc = .ok fields) :
    lookupKey fields "thinking" =
      some (JsonValue.obj [("type", JsonValue.str "enabled")]) := by
  unfold prepareUpstreamBody at h
  cases hd : decodeChatRequest doc with
  | none =>
      rw [hd] at h
      exact absurd h (by simp)
  | some req =>
      rw [hd] at h
      dsimp only at h
      cases hv : validateRequest req with
      | some e =>
          rw [hv] at h
          exact absurd h (by simp)
      | none =>
          rw [hv] at h
          simp only [Except.ok.injEq] at h
          rw [← h]
          exact lookup_augment_thinking _ _

/-- A concrete valid chat request used to witness the forwarding claims. -/
def sampleChatDoc : JsonValue :=
  .obj [("model", .str "GLM-4.6"),
        ("messages", .arr [.obj [("role", .str "user"), ("content", .str "hi")]])]

/-- Witness for C7: the sample request is forwarded and its upstream body
carries `thinking = {"type": "enabled"}`. -/
theorem c7_witness :
    lookupKey [("thinking", thinkingValue),
      ("model", JsonValue.str "GLM-4.6"),
      ("messages", JsonValue.arr [JsonValue.obj
        [("role", JsonValue.str "user"), ("content", JsonValue.str "hi")]])]
      "thinking" =
      some (JsonValue.obj [("type", JsonValue.str "enabled")]) :=
  c7_thinking_always_enabled sampleChatDoc _ rfl

/-- The field named `k` of the body the handler would send upstream for
inbound document `doc`, when the request is forwarded at all. -/
def upstreamField (doc : JsonValue) (k : String) : Option JsonValue :=
  match prepareUpstreamBody doc with
  | .ok fs => lookupKey fs k
  | .error _ => none

/-- Claim C1 (code bug): the sample request uses the valid registry
spelling "GLM-4.6", whose canonical wire name is the distinct string
"glm-4.6", yet the upstream-bound body still carries the caller's
spelling — `handleChatCompletions` never rewrites `bodyMap["model"]` and
never calls `GetCanonicalModelName`, contradicting that function's own
documented purpose. -/
theorem c1_model_not_canonicalized :
    IsValidModel "GLM-4.6" = true ∧
    upstreamField sampleChatDoc "model" = some (JsonValue.str "GLM-4.6") ∧
    GetCanonicalModelName "GLM-4.6" = "glm-4.6" ∧
    "GLM-4.6" ≠ "glm-4.6" :=
  ⟨by decide, rfl, by decide, by decide⟩

/-- A valid streaming request for "GLM-4.6" whose `tools` key holds the
EMPTY array. -/
def c2EmptyToolsDoc : JsonValue :=
  .obj [("model", .str "GLM-4.6"),
        ("messages", .arr [.obj [("role", .str "user"), ("content", .str "hi")]]),
        ("stream", .bool true),
        ("tools", .arr [])]

/-- Counterexample to claim C2 as stated: the inbound `tools` array is
empty, so by the claim the `tool_stream` key must be absent from the
upstream body; the code only tests key PRESENCE
(`_, hasTools := bodyMap["tools"]`) and emits `tool_stream = true`. -/
theorem c2_counterexample :
    lookupKey (docMap c2EmptyToolsDoc) "tools" = some (JsonValue.arr []) ∧
    upstreamField c2EmptyToolsDoc "tool_stream" = some (JsonValue.bool true) :=
  ⟨rfl, rfl⟩

/-- Claim C2 as amended: for a forwarded request that does not itself
carry a `tool_stream` key, the upstream body has `tool_stream = true` iff
the request's `model` string is exactly "GLM-4.6" (the caller's spelling,
compared case-sensitively), the `tools` key is present with any value,
and `stream` is the literal boolean `true`; in every other combination
the key is absent. -/
theorem c2_tool_stream_amended (doc : JsonValue) (req : ChatRequest)
    (fields : List (String × JsonValue))
    (hd : decodeChatRequest doc = some req)
    (hp : prepareUpstreamBody doc = .ok fields)
    (hn : lookupKey (docMap doc) "tool_stream" = none) :
    (lookupKey fields "tool_stream" = some (JsonValue.bool true) ↔
      (req.model == "GLM-4.6" && hasKey (docMap doc) "tools" &&
        streamFlag (docMap doc)) = true) ∧
    ((req.model == "GLM-4.6" && hasKey (docMap doc) "tools" &&
        streamFlag (docMap doc)) = false →
      lookupKey fields "tool_stream" = none) := by
  obtain ⟨-, hf⟩ := prepareUpstreamBody_ok doc req fields hd hp
  subst hf
  rw [lookup_augment_tool_stream]
  cases hc : (req.model == "GLM-4.6" && hasKey (docMap doc) "tools" &&
      streamFlag (docMap doc)) with
  | true => simp
  | false => simp [hn]

/-- A valid streaming request for "GLM-4.6" with a non-empty `tools`
array and no inbound `tool_stream` key. -/
def c2FiringDoc : JsonValue :=
  .obj [("model", .str "GLM-4.6"),
        ("messages", .arr [.obj [("role", .str "user"), ("content", .str "hi")]]),
        ("stream", .bool true),
        ("tools", .arr [.obj [("type", .str "function")]])]

/-- Witness for the amended C2: on a request satisfying all three
conditions the upstream body carries `tool_stream = true`. -/
theorem c2_amended_witness :
    lookupKey [("tool_stream", JsonValue.bool true),
      ("thinking", thinkingValue),
      ("model", JsonValue.str "GLM-4.6"),
      ("messages", JsonValue.arr [JsonValue.obj
        [("role", JsonValue.str "user"), ("content", JsonValue.str "hi")]]),
      ("stream", JsonValue.bool true),
      ("tools", JsonValue.arr [JsonValue.obj [("type", JsonValue.str "function")]])]
      "tool_stream" = some (JsonValue.bool true) :=
  ((c2_tool_stream_amended c2FiringDoc
      { model := "GLM-4.6",
        messages := [{ role := "user", content := .str "hi" }],
        stream := some true }
      _ rfl rfl rfl).1).mpr (by decide)

/-- Claim C3 (code bug): the upstream client is built with a fixed
120-second `http.Client.Timeout`, which by Go semantics is a wall-clock
ceiling on the whole exchange, body streaming included — the
configuration the claim rules out. -/
theorem c3_whole_exchange_timeout :
    wholeExchangeTimeout proxyClientConfig = some 120 ∧
    wholeExchangeTimeout proxyClientConfig ≠ none :=
  ⟨rfl, by decide⟩

/-- Counterexample to claim C5 as stated: "glm-4.7" is a valid casing of
the known model GLM-4.7 (it is its wire name), yet the context-length
lookup does not find it and falls back to the default; likewise
"gLm-4.6" is accepted by the validity check but not found by the
descriptor lookup. So not every registry lookup is case-insensitive
against both name fields. -/
theorem c5_counterexample :
    IsValidModel "glm-4.7" = true ∧
    GetModelContextLength "glm-4.7" = 128000 ∧
    GetModelContextLength "GLM-4.7" = 200000 ∧
    IsValidModel "gLm-4.6" = true ∧
    GetModel "gLm-4.6" = none := by
  decide

/-- Claim C5 as amended: `IsValidModel` compares case-insensitively
against both the display and wire names (fold-equal inputs are treated
identically), and so does the matching of `GetCanonicalModelName` — any
two fold-equal spellings of a KNOWN model resolve to the same wire name,
while unknown names are returned unchanged; `GetModel` matches by exact
string equality against both names; `GetModelContextLength` matches by
exact string equality against the display name only, falling back to the
128000 default. -/
theorem c5_lookup_semantics (a b name : String) :
    (eqFold a b = true →
      IsValidModel a = IsValidModel b ∧
      (IsValidModel a = true →
        GetCanonicalModelName a = GetCanonicalModelName b)) ∧
    ((GetModel name).isSome = true ↔
      ∃ m ∈ Catalog, m.name = name ∨ m.model = name) ∧
    ((∀ m ∈ Catalog, m.name ≠ name) → GetModelContextLength name = 128000) ∧
    (∀ m ∈ Catalog, m.name = name → GetModelContextLength name = m.contextLen) := by
  refine ⟨?_, ?_, ?_, ?_⟩
  · intro hab
    have hfold : a.data.map asciiLower = b.data.map asciiLower := by
      have h0 := hab
      unfold eqFold at h0
      exact eq_of_beq h0
    have hpred : ∀ s : String, eqFold s a = eqFold s b := by
      intro s
      unfold eqFold
      rw [hfold]
    have he : (fun m : ModelEntry => eqFold m.name a || eqFold m.model a) =
        (fun m : ModelEntry => eqFold m.name b || eqFold m.model b) := by
      funext m
      rw [hpred m.name, hpred m.model]
    have hvalid : IsValidModel a = IsValidModel b := by
      unfold IsValidModel
      rw [he]
    refine ⟨hvalid, ?_⟩
    intro hva
    unfold GetCanonicalModelName
    rw [he]
    cases hfind : Catalog.find? (fun m => eqFold m.name b || eqFold m.model b) with
    | some m => rfl
    | none =>
        exfalso
        have hvb : IsValidModel b = false := by
          unfold IsValidModel
          rw [List.any_eq_false]
          intro m hm
          have := List.find?_eq_none.mp hfind m hm
          simpa using this
        rw [hvalid, hvb] at hva
        exact absurd hva (by decide)
  · unfold GetModel
    simp [List.find?_isSome, beq_iff_eq]
  · intro h
    unfold GetModelContextLength
    have : Catalog.find? (fun m => m.name == name) = none := by
      rw [List.find?_eq_none]
      intro x hx
      simp only [beq_iff_eq]
      exact h x hx
    rw [this]
  · intro m hm he
    subst he
    simp only [Catalog, List.mem_cons, List.not_mem_nil, or_false] at hm
    rcases hm with rfl | rfl | rfl | rfl <;> decide

/-- Witness for the amended C5: two casings of a known model agree under
the case-insensitive operations, and an unknown display name falls back
to the context-length default. -/
theorem c5_amended_witness :
    (IsValidModel "GLM-4.6" = IsValidModel "glm-4.6" ∧
      GetCanonicalModelName "GLM-4.6" = GetCanonicalModelName "glm-4.6") ∧
    GetModelContextLength "no-such-model" = 128000 :=
  ⟨⟨((c5_lookup_semantics "GLM-4.6" "glm-4.6" "x").1 (by decide)).1,
    ((c5_lookup_semantics "GLM-4.6" "glm-4.6" "x").1 (by decide)).2 (by decide)⟩,
   (c5_lookup_semantics "x" "x" "no-such-model").2.2.1 (by decide)⟩

/-- Claim C10: with an empty configured API key no Authorization header
is placed on the upstream request at all; with a non-empty key the
request carries exactly one Authorization header, whose value is
`Bearer <apiKey>`. -/
theorem c10_authorization_header (k : String) :
    (k = "" → (upstreamHeaders k).all (fun p => !(p.1 == "Authorization")) = true) ∧
    (k ≠ "" → (upstreamHeaders k).filter (fun p => p.1 == "Authorization") =
      [("Authorization", "Bearer " ++ k)]) := by
  constructor
  · intro h
    subst h
    decide
  · intro h
    have hk : (k == "") = false := by
      rw [beq_eq_false_iff_ne]
      exact h
    simp [upstreamHeaders, hk]

/-- Witness for C10 at both an empty and a non-empty key. -/
theorem c10_witness :
    (upstreamHeaders "").all (fun p => !(p.1 == "Authorization")) = true ∧
    (upstreamHeaders "secret").filter (fun p => p.1 == "Authorization") =
      [("Authorization", "Bearer " ++ "secret")] :=
  ⟨(c10_authorization_header "").1 rfl,
   (c10_authorization_header "secret").2 (by decide)⟩

/-! ## Relay loop lemmas -/

/-- A cancelled context is detected at the check preceding the next read:
nothing further is written, whatever the source still holds. -/
theorem runRelay_cancel_zero (w : Option Nat) (reads : List ReadResult) :
    runRelay (some 0) w reads = ([], RelayResult.canceled) := by
  cases reads with
  | nil => rfl
  | cons r rest => cases r <;> rfl

/-- Unfolding one uncancelled, write-succeeding chunk iteration. -/
theorem runRelay_chunk_step (c w : Option Nat) (d : List Nat)
    (rest : List ReadResult) (hc : c ≠ some 0) (hw : w ≠ some 0) :
    runRelay c w (ReadResult.chunk d :: rest) =
      (d :: (runRelay (decCancel c) (decBudget w) rest).1,
       (runRelay (decCancel c) (decBudget w) rest).2) := by
  cases c with
  | none =>
      cases w with
      | none => rfl
      | some m =>
          cases m with
          | zero => exact absurd rfl hw
          | succ m2 => rfl
  | some n =>
      cases n with
      | zero => exact absurd rfl hc
      | succ n2 =>
          cases w with
          | none => rfl
          | some m =>
              cases m with
              | zero => exact absurd rfl hw
              | succ m2 => rfl

/-- Cancellation at iteration `k` of an all-chunk prefix: exactly the
first `k` chunks were written (each already flushed), then the check
before read `k` fires and the loop returns the cancellation error. -/
theorem runRelay_canceled (k : Nat) (chunks : List (List Nat))
    (rest : List ReadResult) (h : k ≤ chunks.length) :
    runRelay (some k) none (chunks.map ReadResult.chunk ++ rest) =
      (chunks.take k, RelayResult.canceled) := by
  induction chunks generalizing k with
  | nil =>
      have hk : k = 0 := Nat.le_zero.mp h
      subst hk
      simp [runRelay_cancel_zero]
  | cons d ds ih =>
      cases k with
      | zero => simp [runRelay_cancel_zero]
      | succ n =>
          have hn : n ≤ ds.length := Nat.succ_le_succ_iff.mp h
          rw [List.map_cons, List.cons_append,
            runRelay_chunk_step _ _ _ _ (by simp) (by simp)]
          simp only [decCancel, decBudget]
          rw [ih n hn]
          rfl

/-- An upstream body that yields its chunks and then a clean end-of-stream
is relayed in full and the loop returns no error. -/
theorem runRelay_completed (chunks : List (List Nat)) :
    runRelay none none (chunks.map ReadResult.chunk ++ [ReadResult.eof]) =
      (chunks, RelayResult.completed) := by
  induction chunks with
  | nil => rfl
  | cons d ds ih =>
      rw [List.map_cons, List.cons_append,
        runRelay_chunk_step _ _ _ _ (by simp) (by simp)]
      simp only [decCancel, decBudget]
      rw [ih]

/-- Same when the final read returns its last chunk together with EOF:
the chunk is still written before the loop breaks. -/
theorem runRelay_completed_chunkEOF (chunks : List (List Nat))
    (d : List Nat) :
    runRelay none none (chunks.map ReadResult.chunk ++ [ReadResult.chunkEOF d]) =
      (chunks ++ [d], RelayResult.completed) := by
  induction chunks with
  | nil => rfl
  | cons e es ih =>
      rw [List.map_cons, List.cons_append,
        runRelay_chunk_step _ _ _ _ (by simp) (by simp)]
      simp only [decCancel, decBudget]
      rw [ih]
      rfl

/-- Claim C9: the relay checks cancellation before every read — a context
cancelled at any iteration stops the loop with the cancellation error and
no further writes (only the chunks read before that point were written,
each flushed on write) — and an upstream body ending in a clean EOF is
relayed completely with no error, whether the EOF arrives alone or with
the final chunk. -/
theorem c9_relay_loop :
    (∀ (w : Option Nat) (reads : List ReadResult),
      runRelay (some 0) w reads = ([], RelayResult.canceled)) ∧
    (∀ (k : Nat) (chunks : List (List Nat)) (rest : List ReadResult),
      k ≤ chunks.length →
      runRelay (some k) none (chunks.map ReadResult.chunk ++ rest) =
        (chunks.take k, RelayResult.canceled)) ∧
    (∀ chunks : List (List Nat),
      runRelay none none (chunks.map ReadResult.chunk ++ [ReadResult.eof]) =
        (chunks, RelayResult.completed)) ∧
    (∀ (chunks : List (List Nat)) (d : List Nat),
      runRelay none none (chunks.map ReadResult.chunk ++ [ReadResult.chunkEOF d]) =
        (chunks ++ [d], RelayResult.completed)) :=
  ⟨runRelay_cancel_zero, runRelay_canceled, runRelay_completed,
   runRelay_completed_chunkEOF⟩

/-- Witness for C9: cancellation strikes after the first of two chunks. -/
theorem c9_witness :
    runRelay (some 1) none
      [ReadResult.chunk [7], ReadResult.chunk [8], ReadResult.eof] =
      ([[7]], RelayResult.canceled) :=
  c9_relay_loop.2.1 1 [[7], [8]] [ReadResult.eof] (by decide)

/-- Claim C8: an upstream response — whatever its status code — is never
replaced by a proxy-generated error: the status and headers are copied
verbatim, and with no cancellation and a working destination the body is
relayed byte-for-byte to completion, in particular for every error
status at or above 400. -/
theorem c8_upstream_error_forwarded :
    (∀ (st : Nat) (hs : List (String × String)) (reads : List ReadResult)
        (c w : Option Nat),
      ∃ ws r, executeUpstream c w (.response st hs reads) =
        CallerResponse.relayed st hs ws r) ∧
    (∀ (st : Nat) (hs : List (String × String)) (chunks : List (List Nat)),
      400 ≤ st →
      executeUpstream none none
        (.response st hs (chunks.map ReadResult.chunk ++ [ReadResult.eof])) =
        CallerResponse.relayed st hs chunks RelayResult.completed) := by
  constructor
  · intro st hs reads c w
    exact ⟨_, _, rfl⟩
  · intro st hs chunks h
    simp [executeUpstream, runRelay_completed]

/-- Witness for C8: a 500 upstream response with a custom header is
forwarded as a 500 with that header and its exact body. -/
theorem c8_witness :
    executeUpstream none none (.response 500 [("X-Upstream", "v")]
      [ReadResult.chunk [123], ReadResult.eof]) =
      CallerResponse.relayed 500 [("X-Upstream", "v")] [[123]]
        RelayResult.completed :=
  c8_upstream_error_forwarded.2 500 [("X-Upstream", "v")] [[123]] (by decide)

/-- Counterexample to claim C4 as stated: a request cancelled mid-relay —
after the upstream status 200 has been written — does NOT produce the
499 `request canceled` response; the already-sent status stands and the
relay merely stops. -/
theorem c4_counterexample :
    executeUpstream (some 0) none
      (.response 200 [] [ReadResult.chunk [100], ReadResult.eof]) =
      CallerResponse.relayed 200 [] [] RelayResult.canceled ∧
    CallerResponse.relayed 200 [] [] RelayResult.canceled ≠
      CallerResponse.errorJson 499 "request canceled" := by
  constructor
  · rfl
  · decide

/-- Claim C4 as amended: when the client disconnect cancels the upstream
call itself — before a response is received — the caller gets 499 with
`{"error": "request canceled"}`; when the disconnect happens during body
relay, the already-relayed upstream status stands, the chunks written
before the cancellation check remain the only writes, and no 499 is
produced. -/
theorem c4_cancellation_responses :
    (∀ c w : Option Nat,
      executeUpstream c w (UpstreamOutcome.failure true) =
        CallerResponse.errorJson 499 "request canceled") ∧
    (∀ (st : Nat) (hs : List (String × String)) (chunks : List (List Nat))
        (rest : List ReadResult) (k : Nat), k ≤ chunks.length →
      executeUpstream (some k) none
        (.response st hs (chunks.map ReadResult.chunk ++ rest)) =
        CallerResponse.relayed st hs (chunks.take k) RelayResult.canceled) := by
  constructor
  · intro c w
    rfl
  · intro st hs chunks rest k h
    simp [executeUpstream, runRelay_canceled k chunks rest h]

/-- Witness for the amended C4: a cancelled upstream call yields the 499
body, and a cancellation after one relayed chunk leaves the upstream 200
and exactly that chunk. -/
theorem c4_amended_witness :
    executeUpstream none none (UpstreamOutcome.failure true) =
      CallerResponse.errorJson 499 "request canceled" ∧
    executeUpstream (some 1) none (.response 200 []
      [ReadResult.chunk [5], ReadResult.chunk [6], ReadResult.eof]) =
      CallerResponse.relayed 200 [] [[5]] RelayResult.canceled :=
  ⟨c4_cancellation_responses.1 none none,
   c4_cancellation_responses.2 200 [] [[5], [6]] [ReadResult.eof] 1 (by decide)⟩

/-! ## Claim C6: validation before any upstream call -/

